import Mathlib

/-!
Verification of the call-for-papers crawler (`cfp_crawler.py`).

The development shallowly embeds the crawler's core: the deadline
extractor `_parse_date` (together with an executable model of the regex
`_DEADLINE_PATTERN` under Python `re.search` semantics, restricted to
ASCII character classes), the HTTP fetch helper `_get`, the three source
adapters (Elsevier, Wiley, MDPI), the SJR enrichment lookup
`_sjr_lookup`, and the aggregator `crawl`.

Python exceptions are modelled with `Except PyErr`; a function that can
raise returns `Except PyErr α`, and a caught exception is turned back
into a value exactly where the source catches it.  Network and feed
input is an explicit environment (`Env`): the outcome of every HTTP
attempt and the parsed entries of every feed URL.
-/

/-- Python exception classes that the crawler's code paths can raise. -/
inductive PyErr where
  | valueError
  | typeError
  | attributeError
  | keyError
deriving DecidableEq

/-- A `datetime.date` value: `datetime.date(y, m, d)` validates its
arguments and raises `ValueError` on an invalid calendar combination. -/
structure PyDate where
  year : Nat
  month : Nat
  day : Nat
deriving DecidableEq

/-- Gregorian leap-year rule used by `datetime`. -/
def isLeapYear (y : Nat) : Bool :=
  y % 4 = 0 && (y % 100 ≠ 0 || y % 400 = 0)

/-- Number of days in a month, as `datetime` counts them. -/
def daysInMonth (y m : Nat) : Nat :=
  if m = 2 then (if isLeapYear y then 29 else 28)
  else if m = 4 || m = 6 || m = 9 || m = 11 then 30
  else 31

/-- Validity check performed by the `datetime.date` constructor
(`MINYEAR = 1`, `MAXYEAR = 9999`). -/
def dateValid (y m d : Nat) : Bool :=
  1 ≤ y && y ≤ 9999 && 1 ≤ m && m ≤ 12 && 1 ≤ d && d ≤ daysInMonth y m

/-- `datetime.date(y, m, d)`: the constructed date, or `ValueError`. -/
def dateMk (y m d : Nat) : Except PyErr PyDate :=
  if dateValid y m d then .ok ⟨y, m, d⟩ else .error .valueError

/-! ## Character classes of the regex (ASCII fragment)

`_DEADLINE_PATTERN` uses `\d`, `\s`, `\b` (hence `\w`).  The inputs the
crawler feeds to the pattern are ASCII, so the classes are modelled on
their ASCII fragment. -/

/-- Python regex `\d`, ASCII fragment: `0`-`9`. -/
def isDigitChar (c : Char) : Bool :=
  48 ≤ c.toNat && c.toNat ≤ 57

/-- Python regex `\s`, ASCII fragment: space, tab, newline, carriage
return, vertical tab, form feed. -/
def isSpaceChar (c : Char) : Bool :=
  c.toNat = 32 || c.toNat = 9 || c.toNat = 10 || c.toNat = 13 ||
  c.toNat = 11 || c.toNat = 12

/-- Python regex `\w`, ASCII fragment: letters, digits, underscore.
Word boundaries `\b` are defined from this class. -/
def isWordChar (c : Char) : Bool :=
  isDigitChar c || (97 ≤ c.toNat && c.toNat ≤ 122) ||
  (65 ≤ c.toNat && c.toNat ≤ 90) || c.toNat = 95

/-- The month-name table `_MONTHS` of the source. -/
def _MONTHS : List String :=
  ["January", "February", "March", "April", "May", "June", "July",
   "August", "September", "October", "November", "December"]

/-- Helper for `_MONTH_MAP`: position of a month name, counting from
`i`. -/
def monthOrdAux : List String → Nat → String → Nat
  | [], _, _ => 0
  | n :: ns, i, m => if m = n then i else monthOrdAux ns (i + 1) m

/-- `_MONTH_MAP.get(mon, 0)`: the 1-12 ordinal of a month name, `0` when
the name is not in the table. -/
def _MONTH_MAP (m : String) : Nat :=
  monthOrdAux _MONTHS 1 m

/-! ## The regex matcher

`_DEADLINE_PATTERN = \b(\d{1,2})\s?(Month|…)\s?(\d{4})\b` executed with
`re.search` semantics: positions are tried left to right, and at a given
position the backtracking order is: two day digits before one, a
consumed optional whitespace before none, month alternatives in the
order listed.  A successful match returns the three captured groups
(day digits, month name, year digits). -/

/-- Tail of the pattern: `(\d{4})\b`. -/
def matchYear (day : List Char) (mon : String) :
    List Char → Option (List Char × String × List Char)
  | y1 :: y2 :: y3 :: y4 :: rest =>
      if isDigitChar y1 && isDigitChar y2 && isDigitChar y3 && isDigitChar y4 &&
         (match rest with | [] => true | c :: _ => !isWordChar c) then
        some (day, mon, [y1, y2, y3, y4])
      else none
  | _ => none

/-- Optional whitespace between month and year (`\s?`, greedy). -/
def matchS2 (day : List Char) (mon : String) (r : List Char) :
    Option (List Char × String × List Char) :=
  (match r with
   | c :: r' => if isSpaceChar c then matchYear day mon r' else none
   | [] => none) <|> matchYear day mon r

/-- Month alternation, alternatives tried in the listed order. -/
def matchMon (day : List Char) : List String → List Char →
    Option (List Char × String × List Char)
  | [], _ => none
  | m :: ms, r =>
      (if m.data.isPrefixOf r then matchS2 day m (r.drop m.length) else none)
        <|> matchMon day ms r

/-- Optional whitespace between day and month (`\s?`, greedy). -/
def matchS1 (day : List Char) (r : List Char) :
    Option (List Char × String × List Char) :=
  (match r with
   | c :: r' => if isSpaceChar c then matchMon day _MONTHS r' else none
   | [] => none) <|> matchMon day _MONTHS r

/-- Head of the pattern after the boundary: `(\d{1,2})`, greedy. -/
def matchDay : List Char → Option (List Char × String × List Char)
  | [] => none
  | [d1] => if isDigitChar d1 then matchS1 [d1] [] else none
  | d1 :: d2 :: r =>
      if isDigitChar d1 then
        if isDigitChar d2 then matchS1 [d1, d2] r <|> matchS1 [d1] (d2 :: r)
        else matchS1 [d1] (d2 :: r)
      else none

/-- Word-ness of an optional character; out-of-range positions count as
non-word for `\b`. -/
def isWordOpt : Option Char → Bool
  | none => false
  | some c => isWordChar c

/-- Attempt a match at one position; `prev` is the character before the
position (for the leading `\b`). -/
def matchAt (prev : Option Char) (r : List Char) :
    Option (List Char × String × List Char) :=
  if isWordOpt prev != isWordOpt r.head? then matchDay r else none

/-- `re.search`: leftmost matching position wins. -/
def searchDate : Option Char → List Char → Option (List Char × String × List Char)
  | _, [] => none
  | prev, c :: cs => matchAt prev (c :: cs) <|> searchDate (some c) cs

/-- Decimal value of a digit string, as `int(...)` computes it. -/
def toNatDigits (l : List Char) : Nat :=
  l.foldl (fun a c => a * 10 + (c.toNat - 48)) 0

/-- Body of `_parse_date` after the emptiness test: search, then build
`dt.date(int(year), _MONTH_MAP.get(mon, 0), int(day))` from the first
match.  The `dt.date` call is NOT guarded: an invalid calendar
combination raises `ValueError`. -/
def parseSearch (L : List Char) : Except PyErr (Option PyDate) :=
  match searchDate none L with
  | none => .ok none
  | some (d, m, y) => (dateMk (toNatDigits y) (_MONTH_MAP m) (toNatDigits d)).map some

/-- The same, entered from a `String`. -/
def searchDateStr (s : String) : Except PyErr (Option PyDate) :=
  parseSearch s.data

/-- `_parse_date(text)` for `text : str | None`: `None` and the empty
string are falsy and return `None`; otherwise the pattern is searched. -/
def _parse_date : Option String → Except PyErr (Option PyDate)
  | none => .ok none
  | some s => if s.data = [] then .ok none else searchDateStr s

/-! ## Dynamic JSON values

Payload values are dynamically typed in Python; operations that the
source applies to them (`dict.get`, iteration, slicing, truthiness)
raise the corresponding exceptions on a value of the wrong shape. -/

/-- A decoded JSON value (Python object). -/
inductive Json where
  | null
  | bool (b : Bool)
  | num (n : Int)
  | str (s : String)
  | arr (xs : List Json)
  | obj (kvs : List (String × Json))

/-- Association lookup in a decoded JSON object. -/
def jlookup : List (String × Json) → String → Option Json
  | [], _ => none
  | (k, v) :: rest, key => if k = key then some v else jlookup rest key

/-- Python `x.get(key, default)`: only `dict` has `.get`; any other
value raises `AttributeError`. -/
def jget : Json → String → Json → Except PyErr Json
  | .obj kvs, k, d => .ok ((jlookup kvs k).getD d)
  | _, _, _ => .error .attributeError

/-- Python truthiness of a decoded JSON value. -/
def jtruthy : Json → Bool
  | .null => false
  | .bool b => b
  | .num n => n != 0
  | .str s => !s.data.isEmpty
  | .arr xs => !xs.isEmpty
  | .obj kvs => !kvs.isEmpty

/-- Python `for it in x`: lists iterate elements, strings iterate
one-character strings, dicts iterate their keys; other values raise
`TypeError`. -/
def toIter : Json → Except PyErr (List Json)
  | .arr xs => .ok xs
  | .str s => .ok (s.data.map (fun c => Json.str (String.mk [c])))
  | .obj kvs => .ok (kvs.map (fun kv => Json.str kv.1))
  | _ => .error .typeError

/-- Character-count truncation `s[:200]` on a string. -/
def take200Str (s : String) : String :=
  String.mk (s.data.take 200)

/-- Python `x[:200]`: slicing is defined on strings and lists; other
values raise `TypeError`. -/
def pySlice200 : Json → Except PyErr Json
  | .str s => .ok (.str (take200Str s))
  | .arr xs => .ok (.arr (xs.take 200))
  | _ => .error .typeError

/-- `_parse_date` applied to a payload field value: `None` and falsy
values return `None` (the `if not text` guard), strings are searched,
and any other truthy value raises `TypeError` inside `re.search`. -/
def parseDateJson : Json → Except PyErr (Option PyDate)
  | .null => .ok none
  | .str s => _parse_date (some s)
  | .bool b => if b then .error .typeError else .ok none
  | .num n => if n = 0 then .ok none else .error .typeError
  | .arr xs => if xs.isEmpty then .ok none else .error .typeError
  | .obj kvs => if kvs.isEmpty then .ok none else .error .typeError

/-! ## Fetcher -/

/-- Outcome of one transport-level GET attempt: a response with a status
code and a body (`none` when the body is not decodable JSON, so that
`r.json()` raises `ValueError`), a certificate failure (`SSLError`), or
any other transport failure (`RequestException`, which also covers DNS,
refusal and timeout). -/
inductive Attempt where
  | success (status : Nat) (body : Option Json)
  | sslErr
  | reqErr

/-- A response as the adapters see it: only its decoded body matters
downstream. -/
structure HResp where
  body : Option Json

/-- A parsed syndication-feed entry (`feedparser` normalizes `title`,
`summary` and `link` to strings). -/
structure FeedEntry where
  title : String
  summary : String
  link : String

/-- The external world: the outcome of an HTTP attempt per URL and
verify flag, and the parsed entries of each feed URL (`feedparser`
returns an empty entry list on failure). -/
structure Env where
  attempt : String → Bool → Attempt
  feeds : String → List FeedEntry

/-- Statuses for which `raise_for_status` raises `HTTPError`. -/
def errStatus (st : Nat) : Bool :=
  400 ≤ st && st < 600

/-- `_get(url)` instrumented with the list of attempts it issues, each
recorded as (url, verify flag).  First attempt verifies certificates;
on `SSLError` — and only then — a single retry with `verify=False`
follows; every failure path yields `None` instead of raising. -/
def pyGetT (env : Env) (url : String) :
    Option HResp × List (String × Bool) :=
  match env.attempt url true with
  | .success st body =>
      if errStatus st then (none, [(url, true)]) else (some ⟨body⟩, [(url, true)])
  | .reqErr => (none, [(url, true)])
  | .sslErr =>
      match env.attempt url false with
      | .success st body =>
          if errStatus st then (none, [(url, true), (url, false)])
          else (some ⟨body⟩, [(url, true), (url, false)])
      | _ => (none, [(url, true), (url, false)])

/-- `_get(url)`: the response, or `None` on any failure. -/
def _get (env : Env) (url : String) : Option HResp :=
  (pyGetT env url).1

/-! ## Record model -/

/-- The `CFP` dataclass.  Text fields keep the dynamically typed payload
value that the source stores in them; `sjr` holds the cleaned SJR
string when enrichment parsed one (the numeric `float` value itself is
irrelevant to every claim). -/
structure CFP where
  provider : String
  journal : Json
  title : Json
  description : Json
  posted : Option PyDate
  deadline : Option PyDate
  link : Json
  sjr : Option String

/-! ## Elsevier adapter -/

/-- Elsevier feed URL. -/
def ElsevierScraper.FEED : String :=
  "https://api.journals.elsevier.com/special-issues?limit=100"

/-- Mapping of one Elsevier payload item to a `CFP`, field accesses in
source order; any failing access raises. -/
def ElsevierScraper.item (it : Json) : Except PyErr CFP :=
  match jget it "journalTitle" (.str "Elsevier Journal") with
  | .error e => .error e
  | .ok journal =>
  match jget it "title" (.str "Untitled") with
  | .error e => .error e
  | .ok title =>
  match jget it "description" (.str "") with
  | .error e => .error e
  | .ok desc0 =>
  match pySlice200 desc0 with
  | .error e => .error e
  | .ok description =>
  match jget it "submissionDeadline" .null with
  | .error e => .error e
  | .ok dl0 =>
  match parseDateJson dl0 with
  | .error e => .error e
  | .ok deadline =>
  match jget it "url" (.str "") with
  | .error e => .error e
  | .ok link =>
    .ok ⟨"Elsevier", journal, title, description, none, deadline, link, none⟩

/-- Materialization of the generator loop `for it in items: yield …`
under `except ValueError`: a `ValueError` raised while mapping an item
is caught (the generator warns and ends, keeping the records already
yielded), any other exception propagates out of `list(fetch())`,
discarding everything. -/
def runItems (f : Json → Except PyErr CFP) : List Json → Except PyErr (List CFP)
  | [] => .ok []
  | it :: rest =>
      match f it with
      | .error .valueError => .ok []
      | .error e => .error e
      | .ok c => (runItems f rest).map (c :: ·)

/-- `ElsevierScraper.fetch`, materialized.  A network failure or an
undecodable JSON body (a `ValueError`, caught) yields zero records; an
`AttributeError`/`TypeError` from an unexpected payload shape is NOT
caught by `except ValueError` and propagates. -/
def ElsevierScraper.fetch (env : Env) : Except PyErr (List CFP) :=
  match _get env ElsevierScraper.FEED with
  | none => .ok []
  | some r =>
      match r.body with
      | none => .ok []
      | some body =>
          match jget body "hits" (.arr []) with
          | .error e => .error e
          | .ok hits =>
              match toIter hits with
              | .error e => .error e
              | .ok items => runItems ElsevierScraper.item items

/-! ## Wiley adapter -/

/-- Wiley feed URL. -/
def Wileyscraper.FEED : String :=
  "https://wol-prod-cfp-files.s3.amazonaws.com/v2/calls.json"

/-- Mapping of one Wiley payload item to a `CFP`. -/
def Wileyscraper.item (it : Json) : Except PyErr CFP :=
  match jget it "journalTitle" (.str "Wiley Journal") with
  | .error e => .error e
  | .ok journal =>
  match jget it "title" (.str "Untitled") with
  | .error e => .error e
  | .ok title =>
  match jget it "description" (.str "") with
  | .error e => .error e
  | .ok desc0 =>
  match pySlice200 desc0 with
  | .error e => .error e
  | .ok description =>
  match jget it "deadline" .null with
  | .error e => .error e
  | .ok dl0 =>
  match parseDateJson dl0 with
  | .error e => .error e
  | .ok deadline =>
  match jget it "url" (.str "") with
  | .error e => .error e
  | .ok link =>
    .ok ⟨"Wiley", journal, title, description, none, deadline, link, none⟩

/-- `Wileyscraper.fetch`, same structure as Elsevier over the `calls`
array. -/
def Wileyscraper.fetch (env : Env) : Except PyErr (List CFP) :=
  match _get env Wileyscraper.FEED with
  | none => .ok []
  | some r =>
      match r.body with
      | none => .ok []
      | some body =>
          match jget body "calls" (.arr []) with
          | .error e => .error e
          | .ok calls =>
              match toIter calls with
              | .error e => .error e
              | .ok items => runItems Wileyscraper.item items

/-! ## MDPI adapter -/

/-- The configured journal slugs `MDPIScraper.JOURNALS`. -/
def MDPIScraper.JOURNALS : List String :=
  ["mathematics", "ecologies", "ijerph", "materials", "ijfs",
   "sensors", "risks", "molecules", "geometry", "plants", "cells"]

/-- `MDPIScraper.JSON_API.format(j=j)`. -/
def MDPIScraper.JSON_API (j : String) : String :=
  "https://www.mdpi.com/journal/" ++ j ++ "?format=cfp&limit=300"

/-- `MDPIScraper.RSS.format(j=j)`. -/
def MDPIScraper.RSS (j : String) : String :=
  "https://www.mdpi.com/rss/journal/" ++ j

/-- Python `str.capitalize()`: first character upper-cased, the rest
lower-cased. -/
def pyCapitalize (s : String) : String :=
  match s.data with
  | [] => ""
  | c :: cs => String.mk (c.toUpper :: cs.map Char.toLower)

/-- Mapping of one MDPI special-issue JSON item to a `CFP`. -/
def MDPIScraper.item (j : String) (it : Json) : Except PyErr CFP :=
  match jget it "title" (.str "Untitled") with
  | .error e => .error e
  | .ok title =>
  match jget it "description" (.str "") with
  | .error e => .error e
  | .ok desc0 =>
  match pySlice200 desc0 with
  | .error e => .error e
  | .ok description =>
  match jget it "deadline" .null with
  | .error e => .error e
  | .ok dl0 =>
  match parseDateJson dl0 with
  | .error e => .error e
  | .ok deadline =>
  match jget it "url" (.str "") with
  | .error e => .error e
  | .ok link =>
    .ok ⟨"MDPI", .str (pyCapitalize j), title, description, none, deadline, link,
         none⟩

/-- The MDPI primary item loop under `except Exception`: records mapped
before a failing item are kept, and the Boolean reports whether an
exception was caught (which sends control to the RSS fallback). -/
def mdpiRunItems (j : String) : List Json → List CFP × Bool
  | [] => ([], false)
  | it :: rest =>
      match MDPIScraper.item j it with
      | .error _ => ([], true)
      | .ok c =>
          match mdpiRunItems j rest with
          | (cs, b) => (c :: cs, b)

/-- Outcome of the primary (JSON) strategy of one MDPI journal:
`done recs` when it produced records and reached `continue` (the RSS
fallback is skipped), `fb recs` when control falls through to the RSS
fallback with the records already yielded. -/
inductive MPrim where
  | done (recs : List CFP)
  | fb (recs : List CFP)

/-- The primary strategy of one MDPI journal, mirroring the source:
network failure, an undecodable body, a non-dict body, a falsy
`specialIssues` value, or any exception while iterating or mapping the
items all fall through to the RSS fallback (every exception inside the
`try` is caught by `except Exception`). -/
def mdpiPrimary (env : Env) (j : String) : MPrim :=
  match _get env (MDPIScraper.JSON_API j) with
  | none => .fb []
  | some r =>
      match r.body with
      | none => .fb []
      | some body =>
          match jget body "specialIssues" (.arr []) with
          | .error _ => .fb []
          | .ok data =>
              if jtruthy data then
                match toIter data with
                | .error _ => .fb []
                | .ok items =>
                    match mdpiRunItems j items with
                    | (recs, false) => .done recs
                    | (recs, true) => .fb recs
              else .fb []

/-- Substring containment, Python's `needle in haystack` on strings. -/
def isSubChars (p : List Char) : List Char → Bool
  | [] => p.isEmpty
  | c :: cs => p.isPrefixOf (c :: cs) || isSubChars p cs

/-- The special-issue link heuristic of the RSS fallback. -/
def isSILink (link : String) : Bool :=
  isSubChars "/special_issues/".data link.data ||
  isSubChars "/special-issue".data link.data

/-- Mapping of one surviving feed entry to a `CFP`; `_parse_date` runs
unguarded over the entry summary, so a `ValueError` from an invalid
calendar date propagates. -/
def mdpiRssItem (j : String) (e : FeedEntry) : Except PyErr CFP :=
  match _parse_date (some e.summary) with
  | .error err => .error err
  | .ok deadline =>
      .ok ⟨"MDPI", .str (pyCapitalize j), .str e.title,
           .str (take200Str e.summary), none, deadline, .str e.link, none⟩

/-- Materialization of the RSS-entry loop: the first raising entry
propagates (and `list(...)` discards everything). -/
def mapRssItems (j : String) : List FeedEntry → Except PyErr (List CFP)
  | [] => .ok []
  | e :: rest =>
      match mdpiRssItem j e with
      | .error err => .error err
      | .ok c =>
          match mapRssItems j rest with
          | .error err => .error err
          | .ok cs => .ok (c :: cs)

/-- The RSS fallback of one MDPI journal: keep entries whose link looks
like a special issue, map each to a record. -/
def mdpiRssFor (env : Env) (j : String) : Except PyErr (List CFP) :=
  mapRssItems j ((env.feeds (MDPIScraper.RSS j)).filter (fun e => isSILink e.link))

/-- One journal of `MDPIScraper.fetch`: primary strategy, then the RSS
fallback unless the primary ended in `continue`. -/
def MDPIScraper.fetchJournal (env : Env) (j : String) : Except PyErr (List CFP) :=
  match mdpiPrimary env j with
  | .done recs => .ok recs
  | .fb recs => (mdpiRssFor env j).map (recs ++ ·)

/-- The journal loop of `MDPIScraper.fetch`: journals processed in
order, a raising journal discarding the whole materialized list. -/
def mdpiFetchJournals (env : Env) : List String → Except PyErr (List CFP)
  | [] => .ok []
  | j :: rest =>
      match MDPIScraper.fetchJournal env j with
      | .error e => .error e
      | .ok recs =>
          match mdpiFetchJournals env rest with
          | .error e => .error e
          | .ok more => .ok (recs ++ more)

/-- `MDPIScraper.fetch`, materialized over all configured journals. -/
def MDPIScraper.fetch (env : Env) : Except PyErr (List CFP) :=
  mdpiFetchJournals env MDPIScraper.JOURNALS

/-! ## SJR enrichment -/

/-- Hex digit for percent-encoding. -/
def hexDigit (n : Nat) : Char :=
  if n < 10 then Char.ofNat (48 + n) else Char.ofNat (55 + n)

/-- `requests.utils.quote` on one character (default safe set plus
`/`); code points above one byte are percent-encoded per code point,
an approximation that no claim depends on. -/
def quoteChar (c : Char) : List Char :=
  if isDigitChar c || (97 ≤ c.toNat && c.toNat ≤ 122) ||
     (65 ≤ c.toNat && c.toNat ≤ 90) || c.toNat = 95 || c.toNat = 46 ||
     c.toNat = 45 || c.toNat = 126 || c.toNat = 47 then
    [c]
  else
    '%' :: hexDigit (c.toNat / 16 % 16) :: [hexDigit (c.toNat % 16)]

/-- `requests.utils.quote(journal)`: defined on strings; any other
value raises `TypeError`. -/
def pyQuote (journal : Json) : Except PyErr String :=
  match journal with
  | .str s => .ok (String.mk ((s.data.map quoteChar).flatten))
  | _ => .error .typeError

/-- `_SCIMAGO_API.format(q=…)`. -/
def _SCIMAGO_API (q : String) : String :=
  "https://www.scimagojr.com/journalrank.php?out=json&search=" ++ q

/-- Python `float(...)` acceptance on the cleaned SJR string: an
optional sign, digits with at most one point somewhere among them.
Only the success/failure of the parse matters to the claims, so the
parsed value is kept as the accepted string itself. -/
def isFloatLit (s : String) : Bool :=
  match s.data with
  | [] => false
  | l =>
      let l' := if l.head? = some '-' || l.head? = some '+' then l.tail else l
      !l'.isEmpty &&
      l'.all (fun c => isDigitChar c || c = '.') &&
      (l'.filter (fun c => c = '.')).length ≤ 1 &&
      l'.any isDigitChar

/-- `float(data[0]["SJR"].replace(",", "."))` with every exception
caught by the surrounding `except Exception`: any shape other than a
non-empty array whose first element is a dict holding a string under
`"SJR"` that parses as a float yields `None`. -/
def sjrFromJson (data : Json) : Option String :=
  match data with
  | .arr (x :: _) =>
      match x with
      | .obj kvs =>
          match jlookup kvs "SJR" with
          | some (.str v) =>
              let v' := String.mk (v.data.map (fun c => if c = ',' then '.' else c))
              if isFloatLit v' then some v' else none
          | _ => none
      | _ => none
  | _ => none

/-- `_sjr_lookup(journal)`: quoting the journal name happens OUTSIDE
the `try`, so a non-string journal value raises `TypeError`; from the
`_get` call on, every failure degrades to `None`. -/
def _sjr_lookup (env : Env) (journal : Json) : Except PyErr (Option String) :=
  match pyQuote journal with
  | .error e => .error e
  | .ok q =>
      match _get env (_SCIMAGO_API q) with
      | none => .ok none
      | some resp =>
          match resp.body with
          | none => .ok none
          | some data => .ok (if jtruthy data then sjrFromJson data else none)

/-! ## Aggregator -/

/-- `SCRAPERS[name]`: the registered adapters; an unknown name raises
`KeyError`. -/
def SCRAPERS (name : String) : Except PyErr (Env → Except PyErr (List CFP)) :=
  if name = "Elsevier" then .ok ElsevierScraper.fetch
  else if name = "Wiley" then .ok Wileyscraper.fetch
  else if name = "MDPI" then .ok MDPIScraper.fetch
  else .error .keyError

/-- The per-provider enrichment-and-append loop body of `crawl`. -/
def crawlEnrich (env : Env) (sjr : Bool) (items : List CFP) :
    Except PyErr (List CFP) :=
  if sjr then
    items.mapM (fun c => (_sjr_lookup env c.journal).map (fun v => { c with sjr := v }))
  else .ok items

/-- The provider loop of `crawl`, accumulating `results`. -/
def crawlLoop (env : Env) (sjr : Bool) : List String → List CFP →
    Except PyErr (List CFP)
  | [], acc => .ok acc
  | name :: rest, acc =>
      match SCRAPERS name with
      | .error e => .error e
      | .ok f =>
          match f env with
          | .error e => .error e
          | .ok items =>
              match crawlEnrich env sjr items with
              | .error e => .error e
              | .ok enriched => crawlLoop env sjr rest (acc ++ enriched)

/-- `crawl(providers, sjr)`. -/
def crawl (env : Env) (providers : List String) (sjr : Bool) :
    Except PyErr (List CFP) :=
  crawlLoop env sjr providers []

/-- The fetch sequence of the adapter registered under `name` (the
`KeyError` of an unknown name included), used to state aggregator
claims. -/
def providerFetch (env : Env) (name : String) : Except PyErr (List CFP) :=
  match SCRAPERS name with
  | .ok f => f env
  | .error e => .error e

/-! ## Spec-side definitions

These definitions follow the wording of the specification/claims (not
the source); theorems compare the source-derived definitions against
them. -/

/-- Whether the RSS fallback of one MDPI journal is executed (control
reaches the feed retrieval). -/
def mdpiFallbackRan (env : Env) (j : String) : Bool :=
  match mdpiPrimary env j with
  | .done _ => false
  | .fb _ => true

/-- The records already yielded when the fallback decision is made. -/
def mdpiKeptRecs (env : Env) (j : String) : List CFP :=
  match mdpiPrimary env j with
  | .done recs => recs
  | .fb recs => recs

/-- Modelled from the claim wording: the fallback condition as claim C3
states it — the primary JSON strategy fails (network failure or JSON
decode error) or yields an empty/absent `specialIssues` list. -/
def mdpiPrimaryFailsSpec (env : Env) (j : String) : Bool :=
  match _get env (MDPIScraper.JSON_API j) with
  | none => true
  | some r =>
      match r.body with
      | none => true
      | some body =>
          match jget body "specialIssues" (.arr []) with
          | .ok (.arr []) => true
          | _ => false

/-- The extra fallback triggers present in the source but absent from
claim C3's wording: the decoded body is not a dict, the `specialIssues`
value is truthy but not iterable, an exception is raised while mapping
an item, or the value is falsy without being an empty list. -/
def mdpiExtraCond (env : Env) (j : String) : Bool :=
  match _get env (MDPIScraper.JSON_API j) with
  | none => false
  | some r =>
      match r.body with
      | none => false
      | some body =>
          match jget body "specialIssues" (.arr []) with
          | .error _ => true
          | .ok data =>
              if jtruthy data then
                match toIter data with
                | .error _ => true
                | .ok items => (mdpiRunItems j items).2
              else
                match data with
                | .arr [] => false
                | _ => true

/-- Modelled from the claim wording: the Record that claim C3 promises
for a surviving feed entry — title/summary to `title`/`description`,
`deadline` from the Deadline Extractor on the summary. -/
def specRssRecord (j : String) (e : FeedEntry) (d : Option PyDate) : CFP :=
  ⟨"MDPI", .str (pyCapitalize j), .str e.title, .str (take200Str e.summary),
   none, d, .str e.link, none⟩

/-- The feed entries surviving the special-issue heuristic for one MDPI
journal. -/
def siEntries (env : Env) (j : String) : List FeedEntry :=
  (env.feeds (MDPIScraper.RSS j)).filter (fun e => isSILink e.link)

/-! # Claim theorems -/

/-! ## C1: `_parse_date` on an invalid calendar date -/

/-- Claim C1 (code bug): on `"Submissions due 31 February 2025"` the
first pattern match is day 31, February, 2025, and `_parse_date` calls
`dt.date(2025, 2, 31)` unguarded, which raises `ValueError` — the
function does NOT return `None` as the spec requires. -/
theorem parse_date_invalid_date_raises :
    _parse_date (some "Submissions due 31 February 2025") =
      .error .valueError := by
  rfl

/-! ## C7: `_get` retry contract -/

/-- Whether a transport attempt outcome is a certificate failure. -/
def isSslAttempt : Attempt → Bool
  | .sslErr => true
  | _ => false

/-- Whether a transport attempt outcome makes `_get`'s processing of it
fail: a raised transport error, or a 4xx/5xx status — the only statuses
`raise_for_status` rejects.  This is strictly narrower than claim C7's
"non-2xx status": a final 3xx response fails neither (see the
counterexample below). -/
def attemptFails : Attempt → Bool
  | .success st _ => errStatus st
  | _ => true

/-- An environment whose every attempt yields a final 304 response:
`requests` raises nothing for it, so `_get` returns the response. -/
def envC7cex : Env :=
  ⟨fun _ _ => .success 304 none, fun _ => []⟩

/-- Counterexample to claim C7 as stated: a non-2xx status is NOT
always a failure.  `raise_for_status` raises only for 4xx/5xx, so a
final 304 response makes `_get` return the response (after the single
verified attempt), not `None` as the claim's "non-2xx status" clause
demands. -/
theorem get_redirect_not_failure :
    pyGetT envC7cex "https://x" = (some ⟨none⟩, [("https://x", true)]) ∧
    (pyGetT envC7cex "https://x").1 ≠ none := by
  refine ⟨rfl, ?_⟩
  intro h
  rw [show (pyGetT envC7cex "https://x").1 = some ⟨none⟩ from rfl] at h
  exact Option.noConfusion h

/-- Claim C7, amended: `_get` is total (it returns `Option`, never
raising); it retries exactly once, with certificate validation
disabled, if and only if the first attempt fails with a certificate
error; a first attempt failing any other way — a raised transport
error (DNS, connection refused, timeout) or a 4xx/5xx status, the
statuses `raise_for_status` rejects — returns failure with no retry;
if the disabled-validation retry also fails, the result is failure;
and, contrary to the original claim's "non-2xx status" clause, a first
attempt answering with any status outside 400-599 (2xx or a final 3xx
alike) returns the response, with no retry. -/
theorem get_retries_once_on_ssl :
    ∀ (env : Env) (url : String),
      ((pyGetT env url).2 =
        if isSslAttempt (env.attempt url true) then [(url, true), (url, false)]
        else [(url, true)]) ∧
      (isSslAttempt (env.attempt url true) = false →
        attemptFails (env.attempt url true) = true →
        pyGetT env url = (none, [(url, true)])) ∧
      (isSslAttempt (env.attempt url true) = true →
        attemptFails (env.attempt url false) = true →
        (pyGetT env url).1 = none) ∧
      (∀ st b, env.attempt url true = .success st b → errStatus st = false →
        pyGetT env url = (some ⟨b⟩, [(url, true)])) := by
  intro env url
  refine ⟨?_, ?_, ?_, ?_⟩
  · rcases h : env.attempt url true with ⟨st, body⟩ | _ | _
    · by_cases hs : errStatus st = true <;> simp [pyGetT, h, isSslAttempt, hs]
    · rcases h2 : env.attempt url false with ⟨st2, body2⟩ | _ | _
      · by_cases hs : errStatus st2 = true <;> simp [pyGetT, h, h2, isSslAttempt, hs]
      · simp [pyGetT, h, h2, isSslAttempt]
      · simp [pyGetT, h, h2, isSslAttempt]
    · simp [pyGetT, h, isSslAttempt]
  · intro hssl hfail
    rcases h : env.attempt url true with ⟨st, body⟩ | _ | _
    · rw [h] at hfail; simp only [attemptFails] at hfail; simp [pyGetT, h, hfail]
    · rw [h] at hssl; simp [isSslAttempt] at hssl
    · simp [pyGetT, h]
  · intro hssl hfail
    rcases h : env.attempt url true with ⟨st, body⟩ | _ | _
    · rw [h] at hssl; simp [isSslAttempt] at hssl
    · rcases h2 : env.attempt url false with ⟨st2, body2⟩ | _ | _
      · rw [h2] at hfail; simp only [attemptFails] at hfail
        simp [pyGetT, h, h2, hfail]
      · simp [pyGetT, h, h2]
      · simp [pyGetT, h, h2]
    · rw [h] at hssl; simp [isSslAttempt] at hssl
  · intro st b h hok
    simp [pyGetT, h, hok]

/-- An environment whose verified attempt fails with a certificate
error and whose unverified retry fails with a transport error. -/
def envC7 : Env :=
  ⟨fun _ v => if v then .sslErr else .reqErr, fun _ => []⟩

/-- Witness for C7: in `envC7`, `_get` issues the verified attempt and
exactly one unverified retry, and returns failure. -/
theorem get_retries_once_on_ssl_witness :
    (pyGetT envC7 "https://x").1 = none ∧
    (pyGetT envC7 "https://x").2 = [("https://x", true), ("https://x", false)] := by
  refine ⟨(get_retries_once_on_ssl envC7 "https://x").2.2.1 rfl rfl, ?_⟩
  exact ((get_retries_once_on_ssl envC7 "https://x").1).trans rfl

/-! ## C4: `crawl` without enrichment is plain concatenation -/

/-- The list of each named adapter's fetch sequence, in caller order;
the first adapter failure, if any, is the overall failure (as
`list(SCRAPERS[name].fetch())` propagates it). -/
def mapFetch (env : Env) : List String → Except PyErr (List (List CFP))
  | [] => .ok []
  | n :: rest =>
      match providerFetch env n with
      | .error e => .error e
      | .ok l =>
          match mapFetch env rest with
          | .error e => .error e
          | .ok ls => .ok (l :: ls)

/-- The accumulator loop of `crawl` with `sjr=False` computes the
concatenation of the individual fetch sequences. -/
theorem crawlLoop_false_eq (env : Env) :
    ∀ (ps : List String) (acc : List CFP),
      crawlLoop env false ps acc =
        (mapFetch env ps).map (fun ls => acc ++ ls.flatten) := by
  intro ps
  induction ps with
  | nil => intro acc; simp [crawlLoop, mapFetch, Except.map]
  | cons n rest ih =>
      intro acc
      simp only [crawlLoop, mapFetch, providerFetch]
      cases hs : SCRAPERS n with
      | error e => simp [Except.map]
      | ok f =>
          dsimp only
          cases hf : f env with
          | error e => simp [Except.map]
          | ok items =>
              dsimp only
              have he : crawlEnrich env false items = Except.ok items := rfl
              rw [he]
              dsimp only
              rw [ih (acc ++ items)]
              cases hm : mapFetch env rest with
              | error e => simp [Except.map]
              | ok ls => simp [Except.map, List.append_assoc]

/-- Claim C4: with enrichment off, `crawl` returns exactly the
concatenation of each named adapter's fetch sequence in caller order,
preserving intra-adapter order, with no deduplication or sorting; its
length is the sum of the individual lengths (a totally failed adapter
contributing 0 records to its summand). -/
theorem crawl_is_concat :
    ∀ (env : Env) (providers : List String),
      (∀ n ∈ providers, n = "Elsevier" ∨ n = "Wiley" ∨ n = "MDPI") →
      (crawl env providers false = (mapFetch env providers).map List.flatten) ∧
      (∀ ls, mapFetch env providers = .ok ls →
        crawl env providers false = .ok ls.flatten ∧
        ls.flatten.length = (ls.map List.length).sum) := by
  intro env providers _
  have h := crawlLoop_false_eq env providers []
  constructor
  · rw [crawl, h]
    cases mapFetch env providers with
    | error e => rfl
    | ok ls => simp [Except.map]
  · intro ls hls
    rw [crawl, h, hls]
    exact ⟨by simp [Except.map], by simp⟩

/-- An environment in which every transport attempt fails. -/
def envAllFail : Env :=
  ⟨fun _ _ => .reqErr, fun _ => []⟩

/-- Witness for C4: with every source unreachable, both adapters yield
zero records and `crawl` returns their (empty) concatenation. -/
theorem crawl_is_concat_witness :
    crawl envAllFail ["Elsevier", "Wiley"] false = .ok ([] : List CFP) :=
  ((crawl_is_concat envAllFail ["Elsevier", "Wiley"] (by decide)).2
    [[], []] rfl).1

/-! ## C2: malformed item shapes escape `except ValueError` -/

/-- An environment in which the Elsevier endpoint answers 200 with a
decodable body whose `hits` list contains one well-formed item followed
by one item that is a bare number instead of an object. -/
def envBadItem : Env :=
  ⟨fun url _ =>
     if url = ElsevierScraper.FEED then
       .success 200 (some (.obj [("hits",
         .arr [.obj [("title", .str "Kept")], .num 5])]))
     else .reqErr,
   fun _ => []⟩

/-- Claim C2 (code bug): a decoded payload whose items do not have the
expected shape raises `AttributeError` at `it.get(...)`, which
`except ValueError` does not catch — the exception propagates out of
`fetch()` and out of `crawl()`, discarding even the well-formed record,
instead of being converted to a warning. -/
theorem malformed_item_escapes :
    ElsevierScraper.fetch envBadItem = .error .attributeError ∧
    crawl envBadItem ["Elsevier"] false = .error .attributeError := by
  exact ⟨rfl, rfl⟩

/-! ## C5: a non-string journal makes enrichment abort the run -/

/-- An environment in which the Elsevier endpoint answers with one item
whose `journalTitle` is a number; the item maps to a record without
error, but its `journal` field is not a string. -/
def envNumJournal : Env :=
  ⟨fun url _ =>
     if url = ElsevierScraper.FEED then
       .success 200 (some (.obj [("hits",
         .arr [.obj [("journalTitle", .num 7)]])]))
     else .reqErr,
   fun _ => []⟩

/-- Claim C5 (code bug): `requests.utils.quote(c.journal)` is evaluated
OUTSIDE the `try` of `_sjr_lookup`, so a record whose journal field is
not a string makes the enrichment pass raise `TypeError`, aborting
`crawl` and dropping the record — while the same crawl with `sjr=False`
returns it; the claim's "any exception inside the lookup leaves `sjr`
absent" is violated. -/
theorem enrichment_can_abort :
    crawl envNumJournal ["Elsevier"] true = .error .typeError ∧
    crawl envNumJournal ["Elsevier"] false =
      .ok [⟨"Elsevier", .num 7, .str "Untitled", .str "", none, none,
            .str "", none⟩] := by
  exact ⟨rfl, rfl⟩

/-! ## C9: the `KeyError` abort is not the only aborting class -/

/-- An environment for the unknown-provider check (all transport
attempts fail; no payload is ever reached). -/
def envUnknown : Env :=
  ⟨fun _ _ => .reqErr, fun _ => []⟩

/-- An environment with a malformed Wiley payload item (a bare string
in the `calls` array makes `it.get` raise `AttributeError`). -/
def envBadWiley : Env :=
  ⟨fun url _ =>
     if url = Wileyscraper.FEED then
       .success 200 (some (.obj [("calls", .arr [.bool true])]))
     else .reqErr,
   fun _ => []⟩

/-- Claim C9 (code bug): an unknown provider name does raise `KeyError`
at `SCRAPERS[name]` and aborts the run uncaught, as claimed — but it is
NOT the only failure class that stops the pipeline: with valid provider
names, a malformed payload item also aborts `crawl` (here with
`AttributeError`). -/
theorem unknown_provider_aborts :
    crawl envUnknown ["Springer"] false = .error .keyError ∧
    crawl envBadWiley ["Wiley"] false = .error .attributeError := by
  exact ⟨rfl, rfl⟩

/-! ## C6: description truncation -/

/-- Every string stored by the slicing step is a 200-truncation. -/
theorem pySlice200_str (x : Json) (s : String)
    (h : pySlice200 x = Except.ok (Json.str s)) : ∃ s0, s = take200Str s0 := by
  cases x <;> simp [pySlice200] at h
  exact ⟨_, h.symm⟩

/-- Any record built by the Elsevier item mapper carries a truncated
description whenever that description is a string. -/
theorem elsevierItem_desc (it : Json) (c : CFP)
    (h : ElsevierScraper.item it = Except.ok c) :
    ∀ s, c.description = Json.str s → ∃ s0, s = take200Str s0 := by
  unfold ElsevierScraper.item at h
  repeat' split at h
  all_goals cases h
  intro s hs
  dsimp only at hs
  subst hs
  exact pySlice200_str _ _ (by assumption)

/-- Any record built by the Wiley item mapper carries a truncated
description whenever that description is a string. -/
theorem wileyItem_desc (it : Json) (c : CFP)
    (h : Wileyscraper.item it = Except.ok c) :
    ∀ s, c.description = Json.str s → ∃ s0, s = take200Str s0 := by
  unfold Wileyscraper.item at h
  repeat' split at h
  all_goals cases h
  intro s hs
  dsimp only at hs
  subst hs
  exact pySlice200_str _ _ (by assumption)

/-- Any record built by the MDPI JSON item mapper carries a truncated
description whenever that description is a string. -/
theorem mdpiItem_desc (j : String) (it : Json) (c : CFP)
    (h : MDPIScraper.item j it = Except.ok c) :
    ∀ s, c.description = Json.str s → ∃ s0, s = take200Str s0 := by
  unfold MDPIScraper.item at h
  repeat' split at h
  all_goals cases h
  intro s hs
  dsimp only at hs
  subst hs
  exact pySlice200_str _ _ (by assumption)

/-- Whatever holds of every successfully mapped item holds of every
record that the materialized generator loop returns. -/
theorem runItems_mem (f : Json → Except PyErr CFP) (P : CFP → Prop)
    (hf : ∀ it c, f it = Except.ok c → P c) :
    ∀ (items : List Json) (recs : List CFP),
      runItems f items = Except.ok recs → ∀ c ∈ recs, P c := by
  intro items
  induction items with
  | nil =>
      intro recs h c hc
      cases h
      simp at hc
  | cons it rest ih =>
      intro recs h c hc
      unfold runItems at h
      cases hi : f it with
      | error e =>
          rw [hi] at h
          cases e with
          | valueError => cases h; simp at hc
          | typeError => cases h
          | attributeError => cases h
          | keyError => cases h
      | ok c1 =>
          rw [hi] at h
          cases hr : runItems f rest with
          | error e => rw [hr] at h; cases h
          | ok cs =>
              rw [hr] at h
              simp [Except.map] at h
              subst h
              rcases List.mem_cons.mp hc with rfl | hc2
              · exact hf it c hi
              · exact ih cs hr c hc2

/-- Description truncation across `ElsevierScraper.fetch`. -/
theorem elsevierFetch_desc (env : Env) (recs : List CFP)
    (h : ElsevierScraper.fetch env = Except.ok recs) :
    ∀ c ∈ recs, ∀ s, c.description = Json.str s → ∃ s0, s = take200Str s0 := by
  unfold ElsevierScraper.fetch at h
  repeat' split at h
  any_goals cases h
  any_goals intro c hc; simp at hc
  exact runItems_mem _ _ elsevierItem_desc _ recs h

/-- Description truncation across `Wileyscraper.fetch`. -/
theorem wileyFetch_desc (env : Env) (recs : List CFP)
    (h : Wileyscraper.fetch env = Except.ok recs) :
    ∀ c ∈ recs, ∀ s, c.description = Json.str s → ∃ s0, s = take200Str s0 := by
  unfold Wileyscraper.fetch at h
  repeat' split at h
  any_goals cases h
  any_goals intro c hc; simp at hc
  exact runItems_mem _ _ wileyItem_desc _ recs h

/-- Whatever holds of every successfully mapped MDPI item holds of the
records kept by the primary loop. -/
theorem mdpiRunItems_mem (j : String) (P : CFP → Prop)
    (hf : ∀ it c, MDPIScraper.item j it = Except.ok c → P c) :
    ∀ items, ∀ c ∈ (mdpiRunItems j items).1, P c := by
  intro items
  induction items with
  | nil => intro c hc; simp [mdpiRunItems] at hc
  | cons it rest ih =>
      intro c hc
      unfold mdpiRunItems at hc
      cases hi : MDPIScraper.item j it with
      | error e => rw [hi] at hc; simp at hc
      | ok c1 =>
          rw [hi] at hc
          cases hp : mdpiRunItems j rest with
          | mk cs b =>
              rw [hp] at hc
              dsimp only at hc
              rcases List.mem_cons.mp hc with rfl | hc2
              · exact hf it c hi
              · exact ih c (by rw [hp]; exact hc2)

/-- Whichever way the primary strategy of one MDPI journal ends, the
records it carries satisfy any property of the successfully mapped
items. -/
theorem mdpiPrimary_cases (env : Env) (j : String) (P : CFP → Prop)
    (hf : ∀ it c, MDPIScraper.item j it = Except.ok c → P c) :
    ∀ recs,
      (mdpiPrimary env j = MPrim.done recs ∨ mdpiPrimary env j = MPrim.fb recs) →
      ∀ c ∈ recs, P c := by
  intro recs hor c hc
  rcases hor with h | h
  all_goals unfold mdpiPrimary at h
  all_goals repeat' split at h
  all_goals try cases h
  all_goals try exact absurd hc (by simp)
  all_goals rename_i items hti x heq
  all_goals have hm := mdpiRunItems_mem j P hf items c
  all_goals rw [heq] at hm
  all_goals exact hm hc

/-- Records kept at the fallback decision point satisfy any property of
the successfully mapped items. -/
theorem mdpiKept_mem (env : Env) (j : String) (P : CFP → Prop)
    (hf : ∀ it c, MDPIScraper.item j it = Except.ok c → P c) :
    ∀ c ∈ mdpiKeptRecs env j, P c := by
  intro c hc
  unfold mdpiKeptRecs at hc
  cases hp : mdpiPrimary env j with
  | done recs1 =>
      rw [hp] at hc
      exact mdpiPrimary_cases env j P hf recs1 (Or.inl hp) c hc
  | fb recs1 =>
      rw [hp] at hc
      exact mdpiPrimary_cases env j P hf recs1 (Or.inr hp) c hc

/-- Description truncation across the RSS fallback records. -/
theorem mapRssItems_desc (j : String) :
    ∀ (es : List FeedEntry) (recs : List CFP),
      mapRssItems j es = Except.ok recs →
      ∀ c ∈ recs, ∀ s, c.description = Json.str s → ∃ s0, s = take200Str s0 := by
  intro es
  induction es with
  | nil => intro recs h c hc; cases h; simp at hc
  | cons e rest ih =>
      intro recs h c hc
      unfold mapRssItems at h
      cases hi : mdpiRssItem j e with
      | error err => rw [hi] at h; cases h
      | ok c1 =>
          rw [hi] at h
          cases hr : mapRssItems j rest with
          | error err => rw [hr] at h; cases h
          | ok cs =>
              rw [hr] at h
              cases h
              rcases List.mem_cons.mp hc with rfl | hc2
              · unfold mdpiRssItem at hi
                cases hd : _parse_date (some e.summary) with
                | error err => rw [hd] at hi; cases hi
                | ok dl =>
                    rw [hd] at hi
                    cases hi
                    intro s hs
                    dsimp only at hs
                    injection hs with hs'
                    exact ⟨e.summary, hs'.symm⟩
              · exact ih cs hr c hc2

/-- Description truncation across one MDPI journal. -/
theorem mdpiFetchJournal_desc (env : Env) (j : String) (recs : List CFP)
    (h : MDPIScraper.fetchJournal env j = Except.ok recs) :
    ∀ c ∈ recs, ∀ s, c.description = Json.str s → ∃ s0, s = take200Str s0 := by
  intro c hc
  unfold MDPIScraper.fetchJournal at h
  cases hp : mdpiPrimary env j with
  | done recs1 =>
      rw [hp] at h
      cases h
      exact mdpiPrimary_cases env j _ (mdpiItem_desc j) recs (Or.inl hp) c hc
  | fb recs1 =>
      rw [hp] at h
      cases hr : mdpiRssFor env j with
      | error e => rw [hr] at h; cases h
      | ok rss =>
          rw [hr] at h
          simp [Except.map] at h
          subst h
          rcases List.mem_append.mp hc with hc1 | hc2
          · exact mdpiPrimary_cases env j _ (mdpiItem_desc j) recs1 (Or.inr hp) c hc1
          · unfold mdpiRssFor at hr
            exact mapRssItems_desc j _ rss hr c hc2

/-- Description truncation across `MDPIScraper.fetch`. -/
theorem mdpiFetch_desc (env : Env) (recs : List CFP)
    (h : MDPIScraper.fetch env = Except.ok recs) :
    ∀ c ∈ recs, ∀ s, c.description = Json.str s → ∃ s0, s = take200Str s0 := by
  unfold MDPIScraper.fetch at h
  revert recs h
  generalize MDPIScraper.JOURNALS = js
  induction js with
  | nil => intro recs h c hc; cases h; simp at hc
  | cons j rest ih =>
      intro recs h c hc
      unfold mdpiFetchJournals at h
      cases hj : MDPIScraper.fetchJournal env j with
      | error e => rw [hj] at h; cases h
      | ok recs1 =>
          rw [hj] at h
          cases hr : mdpiFetchJournals env rest with
          | error e => rw [hr] at h; cases h
          | ok more =>
              rw [hr] at h
              cases h
              rcases List.mem_append.mp hc with hc1 | hc2
              · exact mdpiFetchJournal_desc env j recs1 hj c hc1
              · exact ih more hr c hc2

/-- Claim C6: `s[:200]` keeps a string of length at most 200 — exactly
200 and a prefix of the original when the original is longer, the
original unchanged otherwise — and every record produced by any
registered adapter stores such a truncation as its description. -/
theorem descriptions_truncated :
    (∀ s : String,
      (200 < s.length →
        (take200Str s).length = 200 ∧ (take200Str s).data <+: s.data) ∧
      (s.length ≤ 200 → take200Str s = s)) ∧
    (∀ (env : Env) (name : String) (recs : List CFP),
      providerFetch env name = Except.ok recs →
      ∀ c ∈ recs, ∀ s, c.description = Json.str s →
        ∃ s0, s = take200Str s0) := by
  constructor
  · intro s
    have hlen : s.length = s.data.length := rfl
    constructor
    · intro hgt
      constructor
      · show (s.data.take 200).length = 200
        rw [List.length_take]
        omega
      · exact List.take_prefix 200 s.data
    · intro hle
      show String.mk (s.data.take 200) = s
      rw [List.take_of_length_le (by omega)]
  · intro env name recs h c hc
    unfold providerFetch SCRAPERS at h
    by_cases h1 : name = "Elsevier"
    · subst h1; rw [if_pos rfl] at h
      exact elsevierFetch_desc env recs h c hc
    · rw [if_neg h1] at h
      by_cases h2 : name = "Wiley"
      · subst h2; rw [if_pos rfl] at h
        exact wileyFetch_desc env recs h c hc
      · rw [if_neg h2] at h
        by_cases h3 : name = "MDPI"
        · subst h3; rw [if_pos rfl] at h
          exact mdpiFetch_desc env recs h c hc
        · rw [if_neg h3] at h
          cases h

/-- A 201-character description. -/
def longDescr : String := String.mk (List.replicate 201 'a')

/-- Witness for C6: the truncation facts applied at a concrete
201-character string and at a concrete short string. -/
theorem descriptions_truncated_witness :
    (take200Str longDescr).length = 200 ∧ take200Str "short" = "short" := by
  have hlen : longDescr.length = 201 := by
    show (List.replicate 201 'a').length = 201
    exact List.length_replicate 201 'a'
  refine ⟨((descriptions_truncated.1 longDescr).1 ?_).1,
          (descriptions_truncated.1 "short").2 ?_⟩
  · omega
  · show "short".length ≤ 200
    decide

/-! ## C3: when exactly the MDPI fallback runs -/

/-- An environment in which the MDPI primary JSON for `mathematics`
succeeds and decodes to a NON-empty `specialIssues` list whose second
item is malformed, while the journal's feed holds one special-issue
entry. -/
def envC3 : Env :=
  ⟨fun url _ =>
     if url = MDPIScraper.JSON_API "mathematics" then
       .success 200 (some (.obj [("specialIssues",
         .arr [.obj [("title", .str "SI One")], .num 7])]))
     else .reqErr,
   fun url =>
     if url = MDPIScraper.RSS "mathematics" then
       [⟨"Feed SI", "no date here",
         "https://www.mdpi.com/journal/mathematics/special_issues/abc"⟩]
     else []⟩

/-- Counterexample to claim C3 as stated: in `envC3` the RSS fallback
IS executed although the primary strategy neither failed (no network
failure, no JSON decode error) nor yielded an empty/absent
`specialIssues` list — the trigger is an exception while mapping the
second item; the record mapped before it is kept and the feed record
follows it. -/
theorem mdpi_fallback_beyond_claim :
    mdpiFallbackRan envC3 "mathematics" = true ∧
    mdpiPrimaryFailsSpec envC3 "mathematics" = false ∧
    MDPIScraper.fetchJournal envC3 "mathematics" =
      .ok [⟨"MDPI", .str "Mathematics", .str "SI One", .str "", none, none,
            .str "", none⟩,
           ⟨"MDPI", .str "Mathematics", .str "Feed SI", .str "no date here",
            none, none,
            .str "https://www.mdpi.com/journal/mathematics/special_issues/abc",
            none⟩] :=
  ⟨rfl, rfl, rfl⟩

/-- The RSS-entry loop maps exactly the surviving entries to the
claim's records when the Deadline Extractor returns (rather than
raises) on each summary. -/
theorem mapRssItems_spec (j : String) (dls : FeedEntry → Option PyDate) :
    ∀ es : List FeedEntry,
      (∀ e ∈ es, _parse_date (some e.summary) = Except.ok (dls e)) →
      mapRssItems j es =
        Except.ok (es.map (fun e => specRssRecord j e (dls e))) := by
  intro es
  induction es with
  | nil => intro _; rfl
  | cons e rest ih =>
      intro hall
      unfold mapRssItems mdpiRssItem
      rw [hall e (by simp)]
      rw [ih (fun e' he' => hall e' (by simp [he']))]
      rfl

/-- Claim C3, amended: the fallback runs if and only if the primary
strategy fails as the claim says (network failure or JSON decode
error), or yields an empty/absent `specialIssues` list, or — beyond the
claim's wording — any exception is raised while extracting, iterating
or mapping the `specialIssues` value, or that value is falsy without
being a list (`mdpiExtraCond`); when it runs, and the Deadline
Extractor returns on every surviving entry's summary, `fetch` yields
the records kept from the primary pass followed by exactly one record
per surviving feed entry, mapped as the claim describes. -/
theorem mdpi_fallback_amended :
    ∀ (env : Env) (j : String),
      (mdpiFallbackRan env j =
        (mdpiPrimaryFailsSpec env j || mdpiExtraCond env j)) ∧
      (mdpiFallbackRan env j = true →
        ∀ dls : FeedEntry → Option PyDate,
          (∀ e ∈ siEntries env j, _parse_date (some e.summary) = Except.ok (dls e)) →
          MDPIScraper.fetchJournal env j =
            Except.ok (mdpiKeptRecs env j ++
              (siEntries env j).map (fun e => specRssRecord j e (dls e)))) := by
  intro env j
  constructor
  · unfold mdpiFallbackRan mdpiPrimary mdpiPrimaryFailsSpec mdpiExtraCond
    cases _get env (MDPIScraper.JSON_API j) with
    | none => rfl
    | some r =>
        dsimp only
        cases r.body with
        | none => rfl
        | some body =>
            dsimp only
            cases jget body "specialIssues" (Json.arr []) with
            | error e => rfl
            | ok data =>
                dsimp only
                cases data with
                | null => rfl
                | bool b => cases b <;> rfl
                | num n =>
                    rcases eq_or_ne n 0 with rfl | hn
                    · rfl
                    · have hb : (n != 0) = true := by simpa using hn
                      simp [jtruthy, hb, toIter]
                | str s =>
                    cases hL : s.data with
                    | nil => simp [jtruthy, hL, toIter]
                    | cons c cs =>
                        have hb : (!s.data.isEmpty) = true := by simp [hL]
                        simp only [jtruthy, hb, if_true, toIter]
                        cases hR : mdpiRunItems j
                            (s.data.map (fun c => Json.str (String.mk [c]))) with
                        | mk recs b => cases b <;> simp
                | arr xs =>
                    cases xs with
                    | nil => rfl
                    | cons x xs' =>
                        simp only [jtruthy, List.isEmpty_cons, Bool.not_false,
                          if_true, toIter]
                        cases hR : mdpiRunItems j (x :: xs') with
                        | mk recs b => cases b <;> simp
                | obj kvs =>
                    cases kvs with
                    | nil => rfl
                    | cons kv kvs' =>
                        simp only [jtruthy, List.isEmpty_cons, Bool.not_false,
                          if_true, toIter]
                        cases hR : mdpiRunItems j
                            ((kv :: kvs').map (fun kv => Json.str kv.1)) with
                        | mk recs b => cases b <;> simp
  · intro hran dls hdls
    unfold MDPIScraper.fetchJournal
    cases hp : mdpiPrimary env j with
    | done recs =>
        unfold mdpiFallbackRan at hran
        rw [hp] at hran
        cases hran
    | fb recs =>
        have hk : mdpiKeptRecs env j = recs := by unfold mdpiKeptRecs; rw [hp]
        have hr : mdpiRssFor env j =
            Except.ok ((siEntries env j).map (fun e => specRssRecord j e (dls e))) := by
          unfold mdpiRssFor
          exact mapRssItems_spec j dls _ (fun e he => hdls e he)
        rw [hk, hr]
        simp [Except.map]

/-- An environment in which the MDPI primary JSON is unreachable and
the `mathematics` feed holds one special-issue entry and one ordinary
entry. -/
def envC3w : Env :=
  ⟨fun _ _ => .reqErr,
   fun url =>
     if url = MDPIScraper.RSS "mathematics" then
       [⟨"T1", "sum one", "https://x/special-issue/1"⟩,
        ⟨"T2", "other", "https://x/item/2"⟩]
     else []⟩

/-- Witness for the amended C3: with the primary strategy down, the
journal still yields exactly the record of the surviving feed entry. -/
theorem mdpi_fallback_amended_witness :
    MDPIScraper.fetchJournal envC3w "mathematics" =
      Except.ok [specRssRecord "mathematics"
        ⟨"T1", "sum one", "https://x/special-issue/1"⟩ none] := by
  have hents : siEntries envC3w "mathematics" =
      [⟨"T1", "sum one", "https://x/special-issue/1"⟩] := rfl
  have h := (mdpi_fallback_amended envC3w "mathematics").2 rfl (fun _ => none)
    (by intro e he; rw [hents] at he; simp at he; subst he; rfl)
  exact h.trans rfl

/-! ## Facts about the pattern's character classes and month table -/

/-- An ASCII letter (the月-name alphabet). -/
def isAlphaChar (c : Char) : Bool :=
  (65 ≤ c.toNat && c.toNat ≤ 90) || (97 ≤ c.toNat && c.toNat ≤ 122)

/-- First character of a character list is an ASCII letter. -/
def headAlpha (l : List Char) : Bool :=
  match l with
  | [] => false
  | a :: _ => isAlphaChar a

theorem digit_isWord {c : Char} (h : isDigitChar c = true) :
    isWordChar c = true := by
  simp [isWordChar, h]

theorem space_not_digit {c : Char} (h : isSpaceChar c = true) :
    isDigitChar c = false := by
  simp [isSpaceChar] at h
  simp [isDigitChar]
  omega

theorem space_not_word {c : Char} (h : isSpaceChar c = true) :
    isWordChar c = false := by
  simp [isSpaceChar] at h
  simp [isWordChar, isDigitChar]
  omega

theorem space_not_alpha {c : Char} (h : isSpaceChar c = true) :
    isAlphaChar c = false := by
  simp [isSpaceChar] at h
  simp [isAlphaChar]
  omega

theorem digit_not_space {c : Char} (h : isDigitChar c = true) :
    isSpaceChar c = false := by
  simp [isDigitChar] at h
  simp [isSpaceChar]
  omega

theorem digit_not_alpha {c : Char} (h : isDigitChar c = true) :
    isAlphaChar c = false := by
  simp [isDigitChar] at h
  simp [isAlphaChar]
  omega

theorem alpha_isWord {c : Char} (h : isAlphaChar c = true) :
    isWordChar c = true := by
  simp [isAlphaChar] at h
  simp [isWordChar, isDigitChar]
  omega

theorem alpha_not_digit {c : Char} (h : isAlphaChar c = true) :
    isDigitChar c = false := by
  simp [isAlphaChar] at h
  simp [isDigitChar]
  omega

/-- Letters never equal non-letters (as `==`). -/
theorem alpha_beq_false {a c : Char} (ha : isAlphaChar a = true)
    (hc : isAlphaChar c = false) : (a == c) = false := by
  cases hb : a == c with
  | false => rfl
  | true => rw [beq_iff_eq.mp hb] at ha; rw [ha] at hc; cases hc

/-- Every month name starts with a letter. -/
theorem months_headAlpha : ∀ m ∈ _MONTHS, headAlpha m.data = true := by
  decide

/-- No month name is a prefix of another. -/
theorem months_pairwise :
    List.Pairwise (fun a b : String => ¬a.data <+: b.data ∧ ¬b.data <+: a.data)
      _MONTHS := by
  decide

/-! ## Failure lemmas for the matcher -/

/-- The pattern starts with a digit: no match begins at a non-digit. -/
theorem matchAt_nondigit {c : Char} (prev : Option Char) (cs : List Char)
    (h : isDigitChar c = false) : matchAt prev (c :: cs) = none := by
  unfold matchAt
  split
  · cases cs <;> simp [matchDay, h]
  · rfl

/-- No word boundary between two word characters: no match begins
there. -/
theorem matchAt_wordword {c : Char} (prev : Option Char) (cs : List Char)
    (h1 : isWordOpt prev = true) (h2 : isWordChar c = true) :
    matchAt prev (c :: cs) = none := by
  unfold matchAt
  have hh : isWordOpt (c :: cs).head? = true := by simp [isWordOpt, h2]
  rw [h1, hh]
  rfl

/-- The month alternation fails when no alternative is a prefix. -/
theorem matchMon_none_of_notpre (day : List Char) :
    ∀ (L : List String) (r : List Char),
      (∀ m ∈ L, m.data.isPrefixOf r = false) → matchMon day L r = none := by
  intro L
  induction L with
  | nil => intro r _; rfl
  | cons m ms ih =>
      intro r hall
      unfold matchMon
      rw [hall m (by simp)]
      simp only [Bool.false_eq_true, if_false]
      exact ih r (fun m' hm' => hall m' (by simp [hm']))

/-- The month alternation fails on a non-letter head character when all
alternatives start with letters. -/
theorem matchMon_nonalpha (day : List Char) (L : List String) {c : Char}
    (r : List Char) (hL : ∀ m ∈ L, headAlpha m.data = true)
    (hc : isAlphaChar c = false) : matchMon day L (c :: r) = none := by
  apply matchMon_none_of_notpre
  intro m hm
  have hh := hL m hm
  cases hd : m.data with
  | nil => rw [hd] at hh; cases hh
  | cons a as =>
      rw [hd] at hh
      have ha : isAlphaChar a = true := hh
      show ((a :: as).isPrefixOf (c :: r)) = false
      simp [List.isPrefixOf, alpha_beq_false ha hc]

/-- The month alternation fails on an empty remainder. -/
theorem matchMon_nil (day : List Char) (L : List String)
    (hL : ∀ m ∈ L, headAlpha m.data = true) : matchMon day L [] = none := by
  apply matchMon_none_of_notpre
  intro m hm
  have hh := hL m hm
  cases hd : m.data with
  | nil => rw [hd] at hh; cases hh
  | cons a as => rfl

/-- After the day group, a digit can neither be the optional whitespace
nor start a month name: the pattern fails. -/
theorem matchS1_digit (day : List Char) {c : Char} (r : List Char)
    (h : isDigitChar c = true) : matchS1 day (c :: r) = none := by
  unfold matchS1
  show ((if isSpaceChar c = true then matchMon day _MONTHS r else none) <|>
    matchMon day _MONTHS (c :: r)) = none
  rw [digit_not_space h]
  simp only [Bool.false_eq_true, if_false]
  rw [matchMon_nonalpha day _MONTHS r months_headAlpha (digit_not_alpha h)]
  rfl

/-- Consuming a leading whitespace is equivalent for `\s?` before the
month: the no-consume alternative cannot succeed on a space. -/
theorem matchS1_space (day : List Char) {w : Char} (r : List Char)
    (h : isSpaceChar w = true) :
    matchS1 day (w :: r) = matchMon day _MONTHS r := by
  unfold matchS1
  show ((if isSpaceChar w = true then matchMon day _MONTHS r else none) <|>
    matchMon day _MONTHS (w :: r)) = matchMon day _MONTHS r
  rw [h]
  simp only [if_true]
  cases hM : matchMon day _MONTHS r with
  | some res => rfl
  | none =>
      rw [matchMon_nonalpha day _MONTHS r months_headAlpha (space_not_alpha h)]
      rfl

/-- `(\d{4})\b` fails on a non-digit head. -/
theorem matchYear_nondigit (day : List Char) (mon : String) {c : Char}
    (r : List Char) (h : isDigitChar c = false) :
    matchYear day mon (c :: r) = none := by
  match r with
  | [] => rfl
  | [a] => rfl
  | [a, b] => rfl
  | a :: b :: d :: rest => simp [matchYear, h]

/-! ## Scanning lemmas for `re.search` -/

/-- The character preceding the current scan position after consuming a
list. -/
def lastPrev (p : List Char) (prev : Option Char) : Option Char :=
  match p with
  | [] => prev
  | c :: cs => lastPrev cs (some c)

theorem lastPrev_append :
    ∀ (a b : List Char) (prev : Option Char),
      lastPrev (a ++ b) prev = lastPrev b (lastPrev a prev) := by
  intro a
  induction a with
  | nil => intro b prev; rfl
  | cons c cs ih => intro b prev; exact ih b (some c)

theorem lastPrev_eq :
    ∀ (p : List Char) (prev : Option Char),
      lastPrev p prev =
        (match p.getLast? with | some c => some c | none => prev) := by
  intro p
  induction p with
  | nil => intro prev; rfl
  | cons c cs ih =>
      intro prev
      show lastPrev cs (some c) = _
      rw [ih (some c)]
      cases cs with
      | nil => rfl
      | cons d ds =>
          rw [List.getLast?_cons_cons]
          cases hgl : (d :: ds).getLast? with
          | some x => rfl
          | none => exact absurd hgl (by simp)

theorem lastPrev_spec (P : Char → Bool) :
    ∀ (p : List Char) (prev : Option Char), p ≠ [] →
      (∀ c ∈ p, P c = true) →
      ∃ c, lastPrev p prev = some c ∧ P c = true := by
  intro p
  induction p with
  | nil => intro prev h; exact absurd rfl h
  | cons c cs ih =>
      intro prev _ hall
      cases cs with
      | nil => exact ⟨c, rfl, hall c (by simp)⟩
      | cons d ds =>
          exact ih (some c) (by simp) (fun x hx => hall x (by simp [hx]))

/-- `re.search` skips every position inside a digit-free prefix: a
match must begin with a digit. -/
theorem searchDate_skip :
    ∀ (p : List Char) (prev : Option Char) (r : List Char),
      (∀ c ∈ p, isDigitChar c = false) →
      searchDate prev (p ++ r) = searchDate (lastPrev p prev) r := by
  intro p
  induction p with
  | nil => intro prev r _; rfl
  | cons c cs ih =>
      intro prev r hp
      have hc : isDigitChar c = false := hp c (by simp)
      show (matchAt prev (c :: (cs ++ r)) <|> searchDate (some c) (cs ++ r)) = _
      rw [matchAt_nondigit prev _ hc]
      show searchDate (some c) (cs ++ r) = _
      exact ih (some c) r (fun x hx => hp x (by simp [hx]))

/-! ## Prefix lemmas for the month alternation -/

theorem isPrefixOf_append_self (l r : List Char) :
    l.isPrefixOf (l ++ r) = true :=
  List.isPrefixOf_iff_prefix.mpr (List.prefix_append l r)

theorem not_prefixOf_append (m mon rest : List Char)
    (h1 : ¬m <+: mon) (h2 : ¬mon <+: m) :
    m.isPrefixOf (mon ++ rest) = false := by
  cases hb : m.isPrefixOf (mon ++ rest) with
  | false => rfl
  | true =>
      have hpre := List.isPrefixOf_iff_prefix.mp hb
      rcases List.prefix_or_prefix_of_prefix hpre (List.prefix_append mon rest)
        with hh | hh
      · exact absurd hh h1
      · exact absurd hh h2

/-- When the text at the current position starts with a month name of
the table, the alternation behaves exactly as that month's branch: no
other alternative can match (no month name is a prefix of another). -/
theorem matchMon_eq_of_mem (day : List Char) :
    ∀ (L : List String),
      List.Pairwise (fun a b : String => ¬a.data <+: b.data ∧ ¬b.data <+: a.data) L →
      ∀ mon, mon ∈ L → ∀ rest,
        matchMon day L (mon.data ++ rest) = matchS2 day mon rest := by
  intro L
  induction L with
  | nil => intro _ mon h; simp at h
  | cons m ms ih =>
      intro hpw mon hmem rest
      rw [List.pairwise_cons] at hpw
      rcases List.mem_cons.mp hmem with rfl | hmem'
      · unfold matchMon
        rw [isPrefixOf_append_self]
        simp only [if_true]
        have hdrop : (mon.data ++ rest).drop mon.length = rest := by
          have hl : mon.length = mon.data.length := rfl
          rw [hl, List.drop_left]
        rw [hdrop]
        cases hS : matchS2 day mon rest with
        | some res => rfl
        | none =>
            rw [matchMon_none_of_notpre day ms (mon.data ++ rest) ?notpre]
            · rfl
            case notpre =>
              intro m' hm'
              have hp := hpw.1 m' hm'
              exact not_prefixOf_append m'.data mon.data rest hp.2 hp.1
      · unfold matchMon
        have hfalse : m.data.isPrefixOf (mon.data ++ rest) = false := by
          have hp := hpw.1 mon hmem'
          exact not_prefixOf_append m.data mon.data rest hp.1 hp.2
        rw [hfalse]
        simp only [Bool.false_eq_true, if_false]
        show (none <|> matchMon day ms (mon.data ++ rest)) = _
        rw [ih hpw.2 mon hmem' rest]
        cases matchS2 day mon rest <;> rfl

/-! ## Shapes of the pattern's pieces -/

/-- A 1-2 digit day group. -/
def dayShape (d : List Char) : Bool :=
  match d with
  | [d1] => isDigitChar d1
  | [d1, d2] => isDigitChar d1 && isDigitChar d2
  | _ => false

/-- An optional (at most one) whitespace separator. -/
def sepShape (s : List Char) : Bool :=
  match s with
  | [] => true
  | [w] => isSpaceChar w
  | _ => false

/-- A 4-digit year group. -/
def yearShape (y : List Char) : Bool :=
  match y with
  | [y1, y2, y3, y4] =>
      isDigitChar y1 && isDigitChar y2 && isDigitChar y3 && isDigitChar y4
  | _ => false

/-- Text allowed to follow the year without breaking the trailing word
boundary. -/
def tailShape (q : List Char) : Bool :=
  match q with
  | [] => true
  | c :: _ => !isWordChar c

/-- A digit-free prefix that ends (if at all) in a non-word character:
the leading word boundary holds after it and no match can start inside
it. -/
def prefixShape (p : List Char) : Bool :=
  p.all (fun c => !isDigitChar c) &&
  (match p.getLast? with
   | none => true
   | some c => !isWordChar c)

theorem dayShape_inv {d : List Char} (h : dayShape d = true) :
    (∃ d1, d = [d1] ∧ isDigitChar d1 = true) ∨
    (∃ d1 d2, d = [d1, d2] ∧ isDigitChar d1 = true ∧ isDigitChar d2 = true) := by
  match d with
  | [d1] => exact Or.inl ⟨d1, rfl, h⟩
  | [d1, d2] =>
      simp only [dayShape, Bool.and_eq_true] at h
      exact Or.inr ⟨d1, d2, rfl, h.1, h.2⟩
  | [] => simp [dayShape] at h
  | _ :: _ :: _ :: _ => simp [dayShape] at h

theorem sepShape_inv {s : List Char} (h : sepShape s = true) :
    s = [] ∨ ∃ w, s = [w] ∧ isSpaceChar w = true := by
  match s with
  | [] => exact Or.inl rfl
  | [w] => exact Or.inr ⟨w, rfl, h⟩
  | _ :: _ :: _ => simp [sepShape] at h

theorem yearShape_inv {y : List Char} (h : yearShape y = true) :
    ∃ y1 y2 y3 y4, y = [y1, y2, y3, y4] ∧ isDigitChar y1 = true ∧
      isDigitChar y2 = true ∧ isDigitChar y3 = true ∧ isDigitChar y4 = true := by
  match y with
  | [y1, y2, y3, y4] =>
      simp only [yearShape, Bool.and_eq_true] at h
      exact ⟨y1, y2, y3, y4, rfl, h.1.1.1, h.1.1.2, h.1.2, h.2⟩
  | [] => simp [yearShape] at h
  | [_] => simp [yearShape] at h
  | [_, _] => simp [yearShape] at h
  | [_, _, _] => simp [yearShape] at h
  | _ :: _ :: _ :: _ :: _ :: _ => simp [yearShape] at h

/-! ## Success lemmas for the matcher -/

theorem alpha_not_space {c : Char} (h : isAlphaChar c = true) :
    isSpaceChar c = false := by
  simp [isAlphaChar] at h
  simp [isSpaceChar]
  omega

/-- Every month name is a nonempty list starting with a letter. -/
theorem month_head (mon : String) (h : mon ∈ _MONTHS) :
    ∃ a as, mon.data = a :: as ∧ isAlphaChar a = true := by
  have hh := months_headAlpha mon h
  cases hd : mon.data with
  | nil => rw [hd] at hh; cases hh
  | cons a as => rw [hd] at hh; exact ⟨a, as, rfl, hh⟩

/-- `(\d{4})\b` accepts a 4-digit year followed by a boundary-friendly
tail. -/
theorem matchYear_ok (day : List Char) (mon : String) {y q : List Char}
    (hy : yearShape y = true) (hq : tailShape q = true) :
    matchYear day mon (y ++ q) = some (day, mon, y) := by
  obtain ⟨y1, y2, y3, y4, rfl, h1, h2, h3, h4⟩ := yearShape_inv hy
  show matchYear day mon (y1 :: y2 :: y3 :: y4 :: q) = _
  cases q with
  | nil => simp [matchYear, h1, h2, h3, h4]
  | cons c q' =>
      have hc : isWordChar c = false := by simpa [tailShape] using hq
      simp [matchYear, h1, h2, h3, h4, hc]

/-- `\s?(\d{4})\b` accepts an optional whitespace, the year and the
tail. -/
theorem matchS2_ok (day : List Char) (mon : String) {s2 y q : List Char}
    (hs2 : sepShape s2 = true) (hy : yearShape y = true)
    (hq : tailShape q = true) :
    matchS2 day mon (s2 ++ (y ++ q)) = some (day, mon, y) := by
  rcases sepShape_inv hs2 with rfl | ⟨w, rfl, hw⟩
  · obtain ⟨y1, y2, y3, y4, hyeq, h1, _, _, _⟩ := yearShape_inv hy
    subst hyeq
    unfold matchS2
    show ((if isSpaceChar y1 = true then matchYear day mon (y2 :: y3 :: y4 :: q)
            else none) <|>
          matchYear day mon (y1 :: y2 :: y3 :: y4 :: q)) = _
    rw [digit_not_space h1]
    simp only [Bool.false_eq_true, if_false]
    show matchYear day mon ([y1, y2, y3, y4] ++ q) = _
    rw [matchYear_ok day mon hy hq]
  · unfold matchS2
    show ((if isSpaceChar w = true then matchYear day mon (y ++ q) else none) <|>
          matchYear day mon (w :: (y ++ q))) = _
    rw [hw]
    simp only [if_true]
    rw [matchYear_ok day mon hy hq]
    rfl

/-- From the position right after the day group, the rest of the
pattern accepts `s1 ++ month ++ rest` and behaves as the chosen month's
branch on `rest`. -/
theorem matchS1_ok (day : List Char) (mon : String) {s1 : List Char}
    (rest : List Char) (hs1 : sepShape s1 = true) (hmon : mon ∈ _MONTHS) :
    matchS1 day (s1 ++ (mon.data ++ rest)) = matchS2 day mon rest := by
  have hmm := matchMon_eq_of_mem day _MONTHS months_pairwise mon hmon rest
  rcases sepShape_inv hs1 with rfl | ⟨w, rfl, hw⟩
  · obtain ⟨a, as, hd, ha⟩ := month_head mon hmon
    show matchS1 day (mon.data ++ rest) = _
    rw [hd]
    show matchS1 day (a :: (as ++ rest)) = _
    unfold matchS1
    show ((if isSpaceChar a = true then matchMon day _MONTHS (as ++ rest)
            else none) <|>
          matchMon day _MONTHS (a :: (as ++ rest))) = _
    rw [alpha_not_space ha]
    simp only [Bool.false_eq_true, if_false]
    show matchMon day _MONTHS (a :: (as ++ rest)) = _
    rw [show a :: (as ++ rest) = mon.data ++ rest by rw [hd]; rfl]
    exact hmm
  · show matchS1 day (w :: (mon.data ++ rest)) = _
    rw [matchS1_space day (mon.data ++ rest) hw]
    exact hmm

/-- A full match at a position preceded by a non-word character. -/
theorem matchAt_ok (prev : Option Char) {d s1 s2 y q : List Char}
    {mon : String} (hprev : isWordOpt prev = false) (hd : dayShape d = true)
    (hs1 : sepShape s1 = true) (hmon : mon ∈ _MONTHS)
    (hs2 : sepShape s2 = true) (hy : yearShape y = true)
    (hq : tailShape q = true) :
    matchAt prev (d ++ (s1 ++ (mon.data ++ (s2 ++ (y ++ q))))) =
      some (d, mon, y) := by
  have hrest : matchS1 d (s1 ++ (mon.data ++ (s2 ++ (y ++ q)))) =
      some (d, mon, y) :=
    (matchS1_ok d mon (s2 ++ (y ++ q)) hs1 hmon).trans (matchS2_ok d mon hs2 hy hq)
  rcases dayShape_inv hd with ⟨d1, rfl, h1⟩ | ⟨d1, d2, rfl, h1, h2⟩
  · -- one-digit day: the two-digit branch cannot fire, since the next
    -- character is a space or a letter
    show matchAt prev (d1 :: (s1 ++ (mon.data ++ (s2 ++ (y ++ q))))) = _
    unfold matchAt
    have hword : isWordOpt (d1 :: (s1 ++ (mon.data ++ (s2 ++ (y ++ q))))).head? =
        true := by simp [isWordOpt, digit_isWord h1]
    rw [hprev, hword]
    show matchDay (d1 :: (s1 ++ (mon.data ++ (s2 ++ (y ++ q))))) = _
    rcases sepShape_inv hs1 with rfl | ⟨w, rfl, hw⟩
    · obtain ⟨a, as, hdd, ha⟩ := month_head mon hmon
      rw [show ([] : List Char) ++ (mon.data ++ (s2 ++ (y ++ q))) =
            mon.data ++ (s2 ++ (y ++ q)) from rfl] at hrest ⊢
      rw [hdd] at hrest ⊢
      show matchDay (d1 :: a :: (as ++ (s2 ++ (y ++ q)))) = _
      simp only [matchDay]
      rw [h1, alpha_not_digit ha]
      simp only [if_true, Bool.false_eq_true, if_false]
      exact hrest
    · show matchDay (d1 :: w :: (mon.data ++ (s2 ++ (y ++ q)))) = _
      simp only [matchDay]
      rw [h1, space_not_digit hw]
      simp only [if_true, Bool.false_eq_true, if_false]
      exact hrest
  · show matchAt prev (d1 :: d2 :: (s1 ++ (mon.data ++ (s2 ++ (y ++ q))))) = _
    unfold matchAt
    have hword : isWordOpt (d1 :: d2 :: (s1 ++ (mon.data ++ (s2 ++ (y ++ q))))).head? =
        true := by simp [isWordOpt, digit_isWord h1]
    rw [hprev, hword]
    show matchDay (d1 :: d2 :: (s1 ++ (mon.data ++ (s2 ++ (y ++ q))))) = _
    simp only [matchDay]
    rw [h1, h2]
    simp only [if_true]
    rw [hrest]
    rfl

/-! ## C8: what the Deadline Extractor extracts -/

theorem parse_date_mk (L : List Char) (h : L ≠ []) :
    _parse_date (some (String.mk L)) = parseSearch L := by
  show (if L = [] then Except.ok none else parseSearch L) = parseSearch L
  rw [if_neg h]

theorem parseSearch_some (L d y : List Char) (mon : String)
    (h : searchDate none L = some (d, mon, y))
    (hv : dateValid (toNatDigits y) (_MONTH_MAP mon) (toNatDigits d) = true) :
    parseSearch L =
      Except.ok (some ⟨toNatDigits y, _MONTH_MAP mon, toNatDigits d⟩) := by
  unfold parseSearch
  rw [h]
  dsimp only
  unfold dateMk
  rw [hv]
  rfl

theorem parseSearch_none (L : List Char) (h : searchDate none L = none) :
    parseSearch L = Except.ok none := by
  unfold parseSearch
  rw [h]

/-- Counterexample to claim C8 as stated: `"a15 March 2026"` contains
the valid-date substring `"15 March 2026"` embedded in surrounding
text, yet the extractor returns absent — the pattern's word boundary
`\b` rejects a match whose day digits directly follow the word
character `a`. -/
theorem parse_date_needs_boundary :
    _parse_date (some "a15 March 2026") = Except.ok none ∧
    _parse_date (some "a15 March 2026") ≠
      Except.ok (some ⟨2026, 3, 15⟩) := by
  constructor
  · rfl
  · intro h
    rw [show _parse_date (some "a15 March 2026") = Except.ok none from rfl] at h
    exact Option.noConfusion (Except.ok.inj h)

/-- Claim C8, amended: for every text `p ++ day ++ s1 ++ month ++ s2 ++
year ++ q` in which the date substring is delimited by word boundaries
(`p` ends, if at all, in a non-word character and `q` starts, if at
all, with one), no match occurs earlier (`p` is digit-free), each
separator is at most one whitespace character, and the combination is a
valid calendar date, `_parse_date` returns exactly the calendar date
(year, month-ordinal, day) of that first match. -/
theorem parse_date_extracts_first :
    ∀ (p d s1 s2 y q : List Char) (mon : String),
      prefixShape p = true →
      dayShape d = true → sepShape s1 = true → mon ∈ _MONTHS →
      sepShape s2 = true → yearShape y = true → tailShape q = true →
      dateValid (toNatDigits y) (_MONTH_MAP mon) (toNatDigits d) = true →
      _parse_date (some (String.mk
          (p ++ (d ++ (s1 ++ (mon.data ++ (s2 ++ (y ++ q)))))))) =
        Except.ok (some ⟨toNatDigits y, _MONTH_MAP mon, toNatDigits d⟩) := by
  intro p d s1 s2 y q mon hp hd hs1 hmon hs2 hy hq hvalid
  have hpdig : ∀ c ∈ p, isDigitChar c = false := by
    intro c hc
    have h1 := (Bool.and_eq_true _ _ |>.mp hp).1
    rw [List.all_eq_true] at h1
    simpa using h1 c hc
  have hplast : isWordOpt (lastPrev p none) = false := by
    rw [lastPrev_eq]
    have h2 := (Bool.and_eq_true _ _ |>.mp hp).2
    cases hgl : p.getLast? with
    | none => rfl
    | some c =>
        rw [hgl] at h2
        show isWordChar c = false
        simpa using h2
  have hne : (p ++ (d ++ (s1 ++ (mon.data ++ (s2 ++ (y ++ q)))))) ≠ [] := by
    rcases dayShape_inv hd with ⟨d1, rfl, _⟩ | ⟨d1, d2, rfl, _, _⟩ <;> simp
  rw [parse_date_mk _ hne]
  have hmatch := matchAt_ok (lastPrev p none) hplast hd hs1 hmon hs2 hy hq
  have hsearch : searchDate none
      (p ++ (d ++ (s1 ++ (mon.data ++ (s2 ++ (y ++ q)))))) =
      some (d, mon, y) := by
    rw [searchDate_skip p none _ hpdig]
    rcases dayShape_inv hd with ⟨d1, rfl, _⟩ | ⟨d1, d2, rfl, _, _⟩
    · show (matchAt (lastPrev p none)
          ([d1] ++ (s1 ++ (mon.data ++ (s2 ++ (y ++ q))))) <|>
        searchDate (some d1) (s1 ++ (mon.data ++ (s2 ++ (y ++ q))))) = _
      rw [hmatch]
      rfl
    · show (matchAt (lastPrev p none)
          ([d1, d2] ++ (s1 ++ (mon.data ++ (s2 ++ (y ++ q))))) <|>
        searchDate (some d1) (d2 :: (s1 ++ (mon.data ++ (s2 ++ (y ++ q)))))) = _
      rw [hmatch]
      rfl
  exact parseSearch_some _ d y mon hsearch hvalid

/-- Witness for the amended C8: `"Deadline: 15 March 2026."` parses to
2026-03-15. -/
theorem parse_date_extracts_first_witness :
    _parse_date (some (String.mk
        ("Deadline: ".data ++ ("15".data ++ (" ".data ++ ("March".data ++
          (" ".data ++ ("2026".data ++ ".".data)))))))) =
      Except.ok (some ⟨2026, 3, 15⟩) := by
  have h := parse_date_extracts_first "Deadline: ".data "15".data " ".data
    " ".data "2026".data ".".data "March" (by decide) (by decide) (by decide)
    (by decide) (by decide) (by decide) (by decide) (by decide)
  exact h.trans rfl

/-! ## C10: at most one whitespace character per separator -/

/-- Every character of every month name is a letter. -/
theorem months_allAlpha : ∀ m ∈ _MONTHS, ∀ c ∈ m.data, isAlphaChar c = true := by
  decide

/-- Scanning a bare 4-digit group preceded by a non-word character
finds no match: the pattern needs a month name after at most two
digits. -/
theorem search_digits4_none {w : Char} (hw : isWordChar w = false)
    {y : List Char} (hy : yearShape y = true) :
    searchDate (some w) y = none := by
  obtain ⟨y1, y2, y3, y4, rfl, h1, h2, h3, h4⟩ := yearShape_inv hy
  have hA : matchAt (some w) [y1, y2, y3, y4] = none := by
    unfold matchAt
    have hb : (isWordOpt (some w) != isWordOpt ([y1, y2, y3, y4]).head?) = true := by
      simp [isWordOpt, hw, digit_isWord h1]
    rw [if_pos hb]
    show matchDay [y1, y2, y3, y4] = none
    simp only [matchDay]
    rw [h1, h2]
    simp only [if_true]
    rw [matchS1_digit [y1, y2] [y4] h3, matchS1_digit [y1] [y3, y4] h2]
    rfl
  have hB : matchAt (some y1) [y2, y3, y4] = none :=
    matchAt_wordword _ _ (by simp [isWordOpt, digit_isWord h1]) (digit_isWord h2)
  have hC : matchAt (some y2) [y3, y4] = none :=
    matchAt_wordword _ _ (by simp [isWordOpt, digit_isWord h2]) (digit_isWord h3)
  have hD : matchAt (some y3) [y4] = none :=
    matchAt_wordword _ _ (by simp [isWordOpt, digit_isWord h3]) (digit_isWord h4)
  show (matchAt (some w) [y1, y2, y3, y4] <|>
    (matchAt (some y1) [y2, y3, y4] <|>
      (matchAt (some y2) [y3, y4] <|>
        (matchAt (some y3) [y4] <|> searchDate (some y4) [])))) = none
  rw [hA, hB, hC, hD]
  rfl

/-- With a separator of two or more whitespace characters somewhere
between day, month and year, the pattern tail fails from the day
position. -/
theorem matchS1_multispace_none (day : List Char) {s1 s2 y : List Char}
    {mon : String} (hmon : mon ∈ _MONTHS)
    (hsp1 : ∀ c ∈ s1, isSpaceChar c = true)
    (hsp2 : ∀ c ∈ s2, isSpaceChar c = true)
    (hne1 : s1 ≠ []) (hne2 : s2 ≠ [])
    (hlen : 2 ≤ s1.length ∨ 2 ≤ s2.length) (_hy : yearShape y = true) :
    matchS1 day (s1 ++ (mon.data ++ (s2 ++ y))) = none := by
  cases s1 with
  | nil => exact absurd rfl hne1
  | cons w s1' =>
      have hw := hsp1 w (by simp)
      show matchS1 day (w :: (s1' ++ (mon.data ++ (s2 ++ y)))) = none
      rw [matchS1_space day _ hw]
      cases s1' with
      | cons u s1'' =>
          have hu := hsp1 u (by simp)
          exact matchMon_nonalpha day _MONTHS _ months_headAlpha
            (space_not_alpha hu)
      | nil =>
          have hlen2 : 2 ≤ s2.length := by
            rcases hlen with h | h
            · exact absurd h (by simp)
            · exact h
          rw [List.nil_append,
            matchMon_eq_of_mem day _MONTHS months_pairwise mon hmon (s2 ++ y)]
          cases s2 with
          | nil => exact absurd rfl hne2
          | cons v s2' =>
              have hv := hsp2 v (by simp)
              cases s2' with
              | nil => exact absurd hlen2 (by simp)
              | cons v2 s2'' =>
                  have hv2 := hsp2 v2 (by simp)
                  show matchS2 day mon (v :: (v2 :: (s2'' ++ y))) = none
                  unfold matchS2
                  show ((if isSpaceChar v = true then
                          matchYear day mon (v2 :: (s2'' ++ y)) else none) <|>
                        matchYear day mon (v :: (v2 :: (s2'' ++ y)))) = none
                  rw [hv]
                  simp only [if_true]
                  rw [matchYear_nondigit day mon _ (space_not_digit hv2),
                      matchYear_nondigit day mon _ (space_not_digit hv)]
                  rfl

/-- No match can begin at the day position when a separator holds two
or more whitespace characters. -/
theorem matchAt_multispace_none (prev : Option Char)
    (hprev : isWordOpt prev = false) {d s1 s2 y : List Char} {mon : String}
    (hd : dayShape d = true) (hmon : mon ∈ _MONTHS)
    (hsp1 : ∀ c ∈ s1, isSpaceChar c = true)
    (hsp2 : ∀ c ∈ s2, isSpaceChar c = true)
    (hne1 : s1 ≠ []) (hne2 : s2 ≠ [])
    (hlen : 2 ≤ s1.length ∨ 2 ≤ s2.length) (hy : yearShape y = true) :
    matchAt prev (d ++ (s1 ++ (mon.data ++ (s2 ++ y)))) = none := by
  rcases dayShape_inv hd with ⟨d1, rfl, h1⟩ | ⟨d1, d2, rfl, h1, h2⟩
  · cases s1 with
    | nil => exact absurd rfl hne1
    | cons w s1' =>
        have hw := hsp1 w (by simp)
        show matchAt prev (d1 :: w :: (s1' ++ (mon.data ++ (s2 ++ y)))) = none
        unfold matchAt
        have hword : isWordOpt
            (d1 :: w :: (s1' ++ (mon.data ++ (s2 ++ y)))).head? = true := by
          simp [isWordOpt, digit_isWord h1]
        rw [hprev, hword]
        show matchDay (d1 :: w :: (s1' ++ (mon.data ++ (s2 ++ y)))) = none
        simp only [matchDay]
        rw [h1, space_not_digit hw]
        simp only [if_true, Bool.false_eq_true, if_false]
        exact matchS1_multispace_none [d1] hmon hsp1 hsp2 hne1 hne2 hlen hy
  · show matchAt prev (d1 :: d2 :: (s1 ++ (mon.data ++ (s2 ++ y)))) = none
    unfold matchAt
    have hword : isWordOpt
        (d1 :: d2 :: (s1 ++ (mon.data ++ (s2 ++ y)))).head? = true := by
      simp [isWordOpt, digit_isWord h1]
    rw [hprev, hword]
    show matchDay (d1 :: d2 :: (s1 ++ (mon.data ++ (s2 ++ y)))) = none
    simp only [matchDay]
    rw [h1, h2]
    simp only [if_true]
    rw [matchS1_multispace_none [d1, d2] hmon hsp1 hsp2 hne1 hne2 hlen hy,
        matchS1_digit [d1] _ h2]
    rfl

/-- After the day group has been scanned past, the remaining
space/month/space/year text contains no further match position. -/
theorem search_after_day_none (prevd : Char) {s1 s2 y : List Char}
    {mon : String} (hmon : mon ∈ _MONTHS)
    (hsp1 : ∀ c ∈ s1, isSpaceChar c = true)
    (hsp2 : ∀ c ∈ s2, isSpaceChar c = true)
    (hne2 : s2 ≠ []) (hy : yearShape y = true) :
    searchDate (some prevd) (s1 ++ (mon.data ++ (s2 ++ y))) = none := by
  have hassoc : s1 ++ (mon.data ++ (s2 ++ y)) = (s1 ++ (mon.data ++ s2)) ++ y := by
    simp [List.append_assoc]
  rw [hassoc, searchDate_skip (s1 ++ (mon.data ++ s2)) (some prevd) y ?nondig]
  case nondig =>
    intro c hc
    rcases List.mem_append.mp hc with hc1 | hc2
    · exact space_not_digit (hsp1 c hc1)
    · rcases List.mem_append.mp hc2 with hcm | hcs
      · exact alpha_not_digit (months_allAlpha mon hmon c hcm)
      · exact space_not_digit (hsp2 c hcs)
  rw [lastPrev_append s1 (mon.data ++ s2), lastPrev_append mon.data s2]
  obtain ⟨wl, hwl, hws⟩ := lastPrev_spec isSpaceChar s2 _ hne2 hsp2
  rw [hwl]
  exact search_digits4_none (space_not_word hws) hy

/-- Claim C10: when the day and month name, or the month name and year,
are separated by two or more whitespace characters, the Deadline
Extractor returns absent — its pattern permits at most one whitespace
character in each gap. -/
theorem parse_date_single_space_only :
    ∀ (d s1 s2 y : List Char) (mon : String),
      dayShape d = true → mon ∈ _MONTHS → yearShape y = true →
      (∀ c ∈ s1, isSpaceChar c = true) → (∀ c ∈ s2, isSpaceChar c = true) →
      s1 ≠ [] → s2 ≠ [] → 2 ≤ s1.length ∨ 2 ≤ s2.length →
      _parse_date (some (String.mk (d ++ (s1 ++ (mon.data ++ (s2 ++ y)))))) =
        Except.ok none := by
  intro d s1 s2 y mon hd hmon hy hsp1 hsp2 hne1 hne2 hlen
  have hne : (d ++ (s1 ++ (mon.data ++ (s2 ++ y)))) ≠ [] := by
    rcases dayShape_inv hd with ⟨d1, rfl, _⟩ | ⟨d1, d2, rfl, _, _⟩ <;> simp
  rw [parse_date_mk _ hne]
  apply parseSearch_none
  have hZ := matchAt_multispace_none none rfl hd hmon hsp1 hsp2 hne1 hne2 hlen hy
  rcases dayShape_inv hd with ⟨d1, hdeq, h1⟩ | ⟨d1, d2, hdeq, h1, h2⟩
  · subst hdeq
    show (matchAt none ([d1] ++ (s1 ++ (mon.data ++ (s2 ++ y)))) <|>
      searchDate (some d1) (s1 ++ (mon.data ++ (s2 ++ y)))) = none
    rw [hZ, search_after_day_none d1 hmon hsp1 hsp2 hne2 hy]
    rfl
  · subst hdeq
    show (matchAt none ([d1, d2] ++ (s1 ++ (mon.data ++ (s2 ++ y)))) <|>
      (matchAt (some d1) (d2 :: (s1 ++ (mon.data ++ (s2 ++ y)))) <|>
        searchDate (some d2) (s1 ++ (mon.data ++ (s2 ++ y))))) = none
    rw [hZ,
      matchAt_wordword _ _ (by simp [isWordOpt, digit_isWord h1]) (digit_isWord h2),
      search_after_day_none d2 hmon hsp1 hsp2 hne2 hy]
    rfl

/-- Witness for C10: `"15  March 2026"` (two spaces after the day)
parses to absent. -/
theorem parse_date_single_space_only_witness :
    _parse_date (some (String.mk
        ("15".data ++ ("  ".data ++ ("March".data ++ (" ".data ++ "2026".data)))))) =
      Except.ok none := by
  exact parse_date_single_space_only "15".data "  ".data " ".data "2026".data
    "March" (by decide) (by decide) (by decide) (by decide) (by decide)
    (by decide) (by decide) (by decide)
